import Mathlib

/-!
Verification development for the Tauri backend in `src/src-tauri/src/lib.rs`
(ai-spotlight-panel).  The file shallowly embeds the three core pieces of the
backend — the cancellation-aware request registry (`RequestAbortState`), the
newline-delimited JSON stream decoder inside `chat_stream`, and the
tool-calling orchestration of `quick_answer` together with `translate_text` —
and proves properties about them.  Network transport and JSON parsing of
response bodies are external collaborators (reqwest / serde_json); they are
modelled as abstract function parameters, while all control flow of the
repository's own code is translated directly.  Machine integers (`u64`
generation counter) are modelled as `Nat` with explicit reduction modulo
`2 ^ 64`; bytes of the streamed body are modelled as `Nat` with newline = 10.
-/

/-- Modulus of the 64-bit generation counter (`AtomicU64` in the source). -/
def U64_MOD : Nat := 2 ^ 64

/-- Rust `str::trim`: strip whitespace from both ends of a string.  The Lean
core `String.trim` is implemented on `Substring` positions and does not reduce
in the kernel, so the same function is defined here directly on the character
list. -/
def strTrim (s : String) : String :=
  String.mk (((s.data.dropWhile Char.isWhitespace).reverse.dropWhile
    Char.isWhitespace).reverse)

/-! ## Request lifecycle registry (`RequestAbortState`, lib.rs lines 14-82)

A slot (`Mutex<Option<RequestSlot>>`) holds at most one in-flight request.
A `RequestSlot` pairs the `u64` generation `id` with an `AbortHandle`.
Each `start_request` creates a fresh `AbortHandle`; handle identity is
modelled by the ordinal number of the `start_request` call that created it
(`started` counts the starts so far).  `aborted` records, in order and with
multiplicity, the ordinals of every `AbortHandle.abort()` invocation the
registry performs, so "invoked exactly once" is `count = 1`. -/

structure RegState where
  counter : Nat
  occupant : Option (Nat × Nat)
  started : Nat
  aborted : List Nat
deriving DecidableEq

/-- Initial registry state: counter 0, empty slot, no aborts (the Rust
`Default` derive). -/
def RegState.initial : RegState :=
  { counter := 0, occupant := none, started := 0, aborted := [] }

/-- `RequestAbortState::next_id`: `counter.fetch_add(1, Relaxed) + 1` on a
`u64`.  Given the current counter value it returns the handed-out id and the
new counter value; both wrap modulo `2 ^ 64`. -/
def next_id (counter : Nat) : Nat × Nat :=
  (((counter + 1) % U64_MOD), ((counter + 1) % U64_MOD))

/-- `RequestAbortState::start_request`: allocate the next id, abort the
previous occupant if any, install the new request.  Returns the generation id
and the new state. -/
def start_request (s : RegState) : Nat × RegState :=
  let id := (next_id s.counter).1
  (id,
    { counter := (next_id s.counter).2
      occupant := some (s.started, id)
      started := s.started + 1
      aborted :=
        match s.occupant with
        | some prev => s.aborted ++ [prev.1]
        | none => s.aborted })

/-- `RequestAbortState::finish_request`: clear the slot only when the current
occupant's generation equals the given id; otherwise do nothing. -/
def finish_request (s : RegState) (id : Nat) : RegState :=
  match s.occupant with
  | some current => if current.2 = id then { s with occupant := none } else s
  | none => s

/-- `RequestAbortState::cancel_request`: take the occupant (if any), abort its
handle and return its generation id. -/
def cancel_request (s : RegState) : Option Nat × RegState :=
  match s.occupant with
  | some prev =>
      (some prev.2, { s with occupant := none, aborted := s.aborted ++ [prev.1] })
  | none => (none, s)

/-- The exposed Tauri command `cancel_quick_answer` (lib.rs lines 745-751): it
invokes `state.cancel_quick_answer()` (which is `cancel_request` on the
quick-answer slot), logs the returned id, and always answers `Ok(())` to its
caller. -/
def cancel_quick_answer_command (s : RegState) : Except String Unit × RegState :=
  (Except.ok (), (cancel_request s).2)

/-- State of one slot after `k` consecutive `start_request` calls from the
initial state. -/
def startTimes : Nat → RegState
  | 0 => RegState.initial
  | k + 1 => (start_request (startTimes k)).2

/-- Generation id handed out by the `k`-th `start_request` call (1-indexed). -/
def genOf (k : Nat) : Nat :=
  (start_request (startTimes (k - 1))).1

/-- Value of the shared `AtomicU64` counter after `k` calls of `next_id`.
The counter is process-wide: calls for different slots all go through it. -/
def counterAfter : Nat → Nat
  | 0 => 0
  | k + 1 => (next_id (counterAfter k)).2

/-- Id handed out by the `k`-th `next_id` call (1-indexed), over any
interleaving of slots, since all slots share the one counter. -/
def idAt (k : Nat) : Nat :=
  (next_id (counterAfter (k - 1))).1

/-! ## Data model of the Ollama API (lib.rs lines 85-155)

`serde_json::Value` is modelled by the inductive `JVal`; the only operations
the source applies to tool-call arguments are object-field lookup (`get`) and
`as_str`. -/

inductive JVal where
  | null
  | bool (b : Bool)
  | num (n : Int)
  | str (s : String)
  | arr (items : List JVal)
  | obj (fields : List (String × JVal))

/-- `serde_json::Value::get(key)`: field lookup on an object, `None` on every
other variant. -/
def JVal.get (v : JVal) (key : String) : Option JVal :=
  match v with
  | .obj fields => fields.lookup key
  | _ => none

/-- `serde_json::Value::as_str`. -/
def JVal.as_str (v : JVal) : Option String :=
  match v with
  | .str s => some s
  | _ => none

structure ToolCallFunction where
  index : Option Nat
  name : String
  arguments : JVal

structure ToolCall where
  call_type : Option String
  function : ToolCallFunction

structure ChatMessage where
  role : String
  content : String
  tool_calls : Option (List ToolCall)

/-- Non-streaming (and per-line streaming) response shape of the completion
backend. -/
structure ChatResponse where
  message : Option ChatMessage
  done : Bool

/-! ## Stream decoder (`chat_stream`, lib.rs lines 467-548)

The decoder receives the response body as a sequence of byte chunks, keeps a
byte accumulator, repeatedly extracts newline-terminated lines, parses each
line with serde_json and pushes events.  serde_json parsing of a complete
line is an abstract parameter `parse`; the two push notifications
(`ollama://token` with a content fragment, `ollama://done`) are the `Event`
type. -/

inductive Event where
  | token (content : String)
  | done
deriving DecidableEq

/-- Handling of one complete extracted line (lib.rs lines 515-541): lines of
length at most 1 are skipped; unparseable lines are skipped; a parsed line
emits its non-empty message content as a token event; a parsed line with
`done = true` emits the done event and stops the whole stream (second
component `true`). -/
def processLine (parse : List Nat → Option ChatResponse) (line : List Nat) :
    List Event × Bool :=
  if line.length ≤ 1 then ([], false)
  else
    match parse line with
    | none => ([], false)
    | some chat_response =>
      let toks : List Event :=
        match chat_response.message with
        | some message =>
            if message.content = "" then [] else [Event.token message.content]
        | none => []
      if chat_response.done then (toks ++ [Event.done], true) else (toks, false)

/-- Position-and-drain of the first newline (lib.rs lines 511-513): returns
the prefix up to and including the first byte 10, and the remaining bytes. -/
def splitFirstLine : List Nat → Option (List Nat × List Nat)
  | [] => none
  | b :: rest =>
    if b = 10 then some ([10], rest)
    else
      match splitFirstLine rest with
      | none => none
      | some (line, r) => some (b :: line, r)

/-- Fuelled version of the inner `while let Some(newline_pos)` loop: extract
and process complete lines until none remains or a done line stops the
stream.  Returns (emitted events, remaining buffer, stopped flag).  One unit
of fuel is spent per extracted line; since every extracted line is non-empty,
`buffer.length` fuel always suffices. -/
def drainLoopF (parse : List Nat → Option ChatResponse) :
    Nat → List Nat → List Event × List Nat × Bool
  | 0, buffer => ([], buffer, false)
  | fuel + 1, buffer =>
    match splitFirstLine buffer with
    | none => ([], buffer, false)
    | some (line, rest) =>
      let step := processLine parse line
      if step.2 then (step.1, rest, true)
      else
        let out := drainLoopF parse fuel rest
        (step.1 ++ out.1, out.2.1, out.2.2)

/-- The inner line-draining loop of `chat_stream`, run to completion on a
buffer. -/
def drainLoop (parse : List Nat → Option ChatResponse) (buffer : List Nat) :
    List Event × List Nat × Bool :=
  drainLoopF parse buffer.length buffer

/-- Decoder state between chunks: the byte accumulator and whether a done
line already ended the stream (after which `chat_stream` has returned and
reads no further chunks). -/
structure DecState where
  buffer : List Nat
  stopped : Bool
deriving DecidableEq

/-- Arrival of one chunk (lib.rs lines 504-543): append the bytes to the
buffer and drain complete lines.  A stopped decoder reads nothing. -/
def processChunk (parse : List Nat → Option ChatResponse) (st : DecState)
    (chunk : List Nat) : DecState × List Event :=
  if st.stopped then (st, [])
  else
    let out := drainLoop parse (st.buffer ++ chunk)
    ({ buffer := out.2.1, stopped := out.2.2 }, out.1)

/-- Run of the decoder over a list of chunks, accumulating emitted events. -/
def runChunks (parse : List Nat → Option ChatResponse) :
    DecState → List (List Nat) → DecState × List Event
  | st, [] => (st, [])
  | st, c :: cs =>
    let step1 := processChunk parse st c
    let rest := runChunks parse step1.1 cs
    (rest.1, step1.2 ++ rest.2)

/-- Complete event sequence `chat_stream` emits for a chunked body: all
events produced while draining, plus the final done event when the underlying
stream ended without a done line (lib.rs lines 545-547). -/
def chat_stream_events (parse : List Nat → Option ChatResponse)
    (chunks : List (List Nat)) : List Event :=
  let out := runChunks parse { buffer := [], stopped := false } chunks
  if out.1.stopped then out.2 else out.2 ++ [Event.done]

/-! ## Tool executor and orchestrator (`quick_answer`, lib.rs lines 184-464) -/

/-- System prompt of `quick_answer` (lib.rs lines 184-195). -/
def QUICK_ANSWER_SYSTEM_PROMPT : String :=
  "You are a web search agent. Your only job is to answer the user\x27s query using fresh information from the internet.\n\nRules:\n- Always call the tool `web_search` exactly once per user query.\n- Use the tool results as your primary source of truth.\n- Return a single, direct answer to the user based only on the tool results and common knowledge needed for readability.\n- Do not ask follow-up questions. Do not start or continue a conversation. Do not add suggestions or next steps.\n- If the results are conflicting, summarize the consensus and note uncertainty briefly.\n- If the results are insufficient, say so in one sentence and state what could not be verified.\n\nOutput:\n- Respond with only the final answer text (no tool logs, no reasoning, no citations unless the application requires them)."

/-- `execute_web_search` (lib.rs lines 219-256): fail immediately on a blank
(after trimming) API URL or key; otherwise issue the outbound call, modelled
by the abstract transport `net` which returns the response text or a
descriptive transport/status failure. -/
def execute_web_search (net : String → Except String String)
    (query api_url api_key : String) : Except String String :=
  let api_url := strTrim api_url
  if api_url = "" then Except.error "Search API URL not configured in Options"
  else
    let api_key := strTrim api_key
    if api_key = "" then Except.error "Search API key not configured in Options"
    else net query

/-- Outgoing conversation messages built by `quick_answer` as
`serde_json::json!` objects. -/
inductive Msg where
  | system (content : String)
  | user (content : String)
  | assistant (content : String) (tool_calls : Option (List ToolCall))
  | tool (tool_name : String) (content : String)

/-- Abstract collaborators of one `quick_answer` run: the two non-streaming
completion calls (each a function of the conversation sent) and the web
search executor (a function of the query, `execute_web_search` with its
URL/key already supplied). -/
structure QAEnv where
  firstCall : List Msg → Except String ChatResponse
  secondCall : List Msg → Except String ChatResponse
  webSearch : String → Except String String

/-- Query string extracted from a tool call (lib.rs lines 354-359):
`arguments.get("query").and_then(as_str).unwrap_or("")`. -/
def queryOf (tc : ToolCall) : String :=
  ((tc.function.arguments.get "query").bind JVal.as_str).getD ""

/-- Body of the `for tool_call in tool_calls` loop (lib.rs lines 351-383):
only tool calls named `web_search` with a non-empty query are executed; a
failed execution is captured as the result text `"Search failed: …"`. -/
def toolStep (webSearch : String → Except String String)
    (acc : List (String × String)) (tc : ToolCall) : List (String × String) :=
  if tc.function.name = "web_search" then
    let query := queryOf tc
    if query = "" then acc
    else
      match webSearch query with
      | Except.ok result => acc ++ [(tc.function.name, result)]
      | Except.error e => acc ++ [(tc.function.name, "Search failed: " ++ e)]
  else acc

/-- Collected `(name, result_text)` pairs for a tool-call list, in call
order. -/
def processToolCalls (webSearch : String → Except String String)
    (tool_calls : List ToolCall) : List (String × String) :=
  tool_calls.foldl (toolStep webSearch) []

/-- Thinking-mode marker appended to the user text (lib.rs line 291). -/
def thinkSuffix (enable_thinking : Bool) : String :=
  if enable_thinking then " /think" else " /no_think"

/-- `chat_response.message.map(|m| m.content).ok_or("No response from
model")` (lib.rs lines 435-438 and 442-446). -/
def defaultAnswer (chat_response : ChatResponse) : Except String String :=
  match chat_response.message with
  | some m => Except.ok m.content
  | none => Except.error "No response from model"

/-- The follow-up request of `quick_answer` (lib.rs lines 403-438): send the
extended conversation, surface transport failures, and extract the final
assistant text. -/
def secondRound (env : QAEnv) (messages : List Msg) : Except String String :=
  match env.secondCall messages with
  | Except.error e => Except.error e
  | Except.ok final_response => defaultAnswer final_response

/-- Pure core of the `quick_answer` command (lib.rs lines 259-447): reject
blank input, build the system/user conversation, issue the first call, run
the tool round and the second call when a non-empty tool-call list comes
back, and otherwise answer with the first response directly. -/
def quick_answer (text : String) (enable_thinking : Bool) (env : QAEnv) :
    Except String String :=
  if strTrim text = "" then Except.error "Empty text"
  else
    let user_content := text ++ thinkSuffix enable_thinking
    let messages : List Msg :=
      [Msg.system QUICK_ANSWER_SYSTEM_PROMPT, Msg.user user_content]
    match env.firstCall messages with
    | Except.error e => Except.error e
    | Except.ok chat_response =>
      match chat_response.message with
      | some message =>
        match message.tool_calls with
        | some tool_calls =>
          if tool_calls.isEmpty then defaultAnswer chat_response
          else
            let tool_results := processToolCalls env.webSearch tool_calls
            let messages2 := messages
              ++ [Msg.assistant message.content (some tool_calls)]
              ++ tool_results.map (fun p => Msg.tool p.1 p.2)
            secondRound env messages2
        | none => defaultAnswer chat_response
      | none => defaultAnswer chat_response

/-! ## Translation resolver (`translate_text`, lib.rs lines 692-743)

`translate_with_target` performs one directional external request; it is the
abstract parameter `translator text target`, returning the translated text
together with the detected source language, or a transport/parse failure. -/

structure TranslationResult where
  text : String
  detected_language : String
deriving DecidableEq

/-- Pure core of the `translate_text` command (lib.rs lines 700-726): blank
input is rejected; an absent or blank or `"en"` target translates to English
and fails with `"Source is English"` when the detected source already is
English; a non-English target translates to that target, keeps that result
when the detected source is English, and otherwise issues a second request
translating to English and returns that. -/
def translate_text (translator : String → String → Except String TranslationResult)
    (text : String) (target_language : Option String) :
    Except String TranslationResult :=
  if strTrim text = "" then Except.error "Empty text"
  else
    let second_language := target_language.getD ""
    let trimmed_language := strTrim second_language
    if trimmed_language = "" ∨ trimmed_language = "en" then
      match translator text "en" with
      | Except.error e => Except.error e
      | Except.ok english_result =>
        if english_result.detected_language = "en" then
          Except.error "Source is English"
        else Except.ok english_result
    else
      match translator text trimmed_language with
      | Except.error e => Except.error e
      | Except.ok second_language_result =>
        if second_language_result.detected_language = "en" then
          Except.ok second_language_result
        else
          match translator text "en" with
          | Except.error e => Except.error e
          | Except.ok english_result => Except.ok english_result

/-! ## Concrete fixtures for the spec's orchestration scenarios -/

/-- A `web_search` tool call carrying a string `query` argument, as the
completion backend returns it. -/
def wsToolCall (q : String) : ToolCall :=
  ⟨some "function", ⟨none, "web_search", JVal.obj [("query", JVal.str q)]⟩⟩

/-- A `web_search` tool call whose arguments object has no `query` field. -/
def emptyQueryToolCall : ToolCall :=
  ⟨none, ⟨none, "web_search", JVal.obj []⟩⟩

/-- Collaborators of the spec's orchestration scenario B: the first call
returns one `web_search` tool call, the executor returns "Paris.", the second
call returns the final answer text. -/
def scenarioBEnv : QAEnv :=
  { firstCall := fun _ =>
      Except.ok ⟨some ⟨"assistant", "", some [wsToolCall "capital of France"]⟩, true⟩
    secondCall := fun _ =>
      Except.ok ⟨some ⟨"assistant", "The capital of France is Paris.", none⟩, true⟩
    webSearch := fun _ => Except.ok "Paris." }

/-- Collaborators of the spec's orchestration scenario C: the web-search
executor is `execute_web_search` with a blank API URL, so every tool
invocation fails with a configuration error. -/
def scenarioCEnv : QAEnv :=
  { firstCall := fun _ =>
      Except.ok ⟨some ⟨"assistant", "", some [wsToolCall "capital of France"]⟩, true⟩
    secondCall := fun _ =>
      Except.ok ⟨some ⟨"assistant", "Search is not configured.", none⟩, true⟩
    webSearch := fun s => execute_web_search (fun _ => Except.ok "raw") s "" "key" }

/-- Collaborators for a first response carrying one tool call without a
usable query followed by one well-formed tool call. -/
def scenarioSkipEnv : QAEnv :=
  { firstCall := fun _ =>
      Except.ok ⟨some ⟨"assistant", "",
        some [emptyQueryToolCall, wsToolCall "capital of France"]⟩, true⟩
    secondCall := fun _ =>
      Except.ok ⟨some ⟨"assistant", "The capital of France is Paris.", none⟩, true⟩
    webSearch := fun _ => Except.ok "Paris." }

/-! ## Registry lemmas -/

theorem count_range (j n : Nat) : (List.range n).count j = if j < n then 1 else 0 := by
  induction n with
  | zero => simp
  | succ n ih =>
    rw [List.range_succ, List.count_append, ih]
    by_cases h : j < n
    · have h2 : j ≠ n := by omega
      simp [h, h2, Nat.lt_succ_of_lt h]
    · by_cases h2 : j = n
      · simp [h, h2]
      · have h3 : ¬ j < n + 1 := by omega
        simp [h, h2, h3]

theorem startTimes_closed (k : Nat) :
    startTimes k =
      { counter := k % U64_MOD
        occupant := if k = 0 then none else some (k - 1, k % U64_MOD)
        started := k
        aborted := List.range (k - 1) } := by
  induction k with
  | zero => rfl
  | succ k ih =>
    show (start_request (startTimes k)).2 = _
    rw [ih]
    simp only [start_request, next_id]
    cases k with
    | zero => simp
    | succ j =>
      have hne : ¬ (j + 1 = 0) := by omega
      simp only [hne, if_false, Nat.mod_add_mod]
      simp [List.range_succ]

theorem genOf_eq (k : Nat) (h : 1 ≤ k) : genOf k = k % U64_MOD := by
  unfold genOf
  rw [startTimes_closed]
  simp only [start_request, next_id, Nat.mod_add_mod]
  congr 1
  omega

theorem counterAfter_eq (k : Nat) : counterAfter k = k % U64_MOD := by
  induction k with
  | zero => rfl
  | succ k ih => simp only [counterAfter, next_id, ih, Nat.mod_add_mod]

theorem idAt_eq (k : Nat) (h : 1 ≤ k) : idAt k = k % U64_MOD := by
  unfold idAt
  rw [counterAfter_eq]
  simp only [next_id, Nat.mod_add_mod]
  congr 1
  omega

/-- C9 counterexample: the generation allocator is a wrapping 64-bit counter,
so over a long enough sequence of start calls generations are neither strictly
increasing nor unique: the id handed out by call `2 ^ 64` is 0, smaller than
the id 1 of call 1, and call `2 ^ 64 + 1` hands out 1 again. -/
theorem C9_generation_counter_wraparound :
    idAt 1 = 1 ∧ idAt (2 ^ 64) = 0 ∧ idAt (2 ^ 64 + 1) = 1 ∧
    (1 < 2 ^ 64 ∧ ¬ idAt 1 < idAt (2 ^ 64)) ∧ idAt 1 = idAt (2 ^ 64 + 1) := by
  have h1 : idAt 1 = 1 := by
    rw [idAt_eq 1 (by norm_num)]
    simp [U64_MOD]
  have h2 : idAt (2 ^ 64) = 0 := by
    rw [idAt_eq (2 ^ 64) (by norm_num)]
    simp [U64_MOD]
  have h3 : idAt (2 ^ 64 + 1) = 1 := by
    rw [idAt_eq (2 ^ 64 + 1) (by norm_num)]
    simp [U64_MOD, Nat.add_mod_left]
  refine ⟨h1, h2, h3, ⟨by norm_num, ?_⟩, by rw [h1, h3]⟩
  rw [h1, h2]
  omega

/-- C9 (amended): as long as fewer than `2 ^ 64` generations have been
allocated, the ids handed out by the process-wide counter are strictly
increasing over any sequence of `next_id` calls, for every slot and across
slots, and hence never reused. -/
theorem C9_generations_strictly_increasing (j k : Nat) (h1 : 1 ≤ j) (h2 : j < k) (h3 : k < 2 ^ 64) :
    idAt j < idAt k := by
  rw [idAt_eq j h1, idAt_eq k (by omega)]
  have hM : U64_MOD = 2 ^ 64 := rfl
  rw [Nat.mod_eq_of_lt (by omega), Nat.mod_eq_of_lt (by omega)]
  exact h2

/-- Witness for C9 at the first two allocations. -/
theorem C9_generations_strictly_increasing_witness : 1 ≤ 1 ∧ 1 < 2 ∧ 2 < 2 ^ 64 ∧ idAt 1 < idAt 2 :=
  ⟨le_refl 1, by norm_num, by norm_num, C9_generations_strictly_increasing 1 2 (le_refl 1) (by norm_num) (by norm_num)⟩

theorem finish_request_current (s : RegState) (o i : Nat) (h : s.occupant = some (o, i)) :
    finish_request s i = { s with occupant := none } := by
  unfold finish_request
  rw [h]
  simp

theorem finish_request_stale (s : RegState) (o i id : Nat) (h : s.occupant = some (o, i))
    (hne : i ≠ id) : finish_request s id = s := by
  unfold finish_request
  rw [h]
  simp [hne]

/-- C1 counterexample: after `2 ^ 64 + 1` start calls on one slot the wrapped
counter hands out generation 1 again, so a finish carrying the generation of
the long-superseded (and aborted exactly once) first request clears the slot
instead of leaving it unchanged. -/
theorem C1_stale_generation_clears_slot :
    genOf 1 = 1 ∧
    (startTimes (2 ^ 64 + 1)).occupant = some (2 ^ 64, 1) ∧
    (startTimes (2 ^ 64 + 1)).aborted.count 0 = 1 ∧
    (finish_request (startTimes (2 ^ 64 + 1)) (genOf 1)).occupant = none := by
  have hg : genOf 1 = 1 := by
    rw [genOf_eq 1 (by norm_num)]
    simp [U64_MOD]
  have hst := startTimes_closed (2 ^ 64 + 1)
  have hmod : (2 ^ 64 + 1) % U64_MOD = 1 := by
    simp [U64_MOD, Nat.add_mod_left]
  have h0 : ¬ (2 ^ 64 + 1 = 0) := by norm_num
  have hocc : (startTimes (2 ^ 64 + 1)).occupant = some (2 ^ 64, 1) := by
    rw [hst]
    simp only [h0, if_false, hmod, Nat.add_sub_cancel]
  refine ⟨hg, hocc, ?_, ?_⟩
  · rw [hst]
    simp only [Nat.add_sub_cancel]
    rw [count_range]
    norm_num
  · rw [hg, finish_request_current _ _ _ hocc]

/-- C1 (amended): for every sequence of fewer than `2 ^ 64` start calls on
the same slot, only the generation returned by the most recent start clears
the slot via finish; a finish carrying any other value — in particular any
earlier generation — leaves the registry unchanged; every superseded
request's abort handle is invoked exactly once and the current occupant's
never. -/
theorem C1_single_flight_registry (n : Nat) (h1 : 1 ≤ n) (hn : n < 2 ^ 64) :
    (startTimes n).occupant = some (n - 1, n) ∧
    (finish_request (startTimes n) (genOf n)).occupant = none ∧
    (∀ id, id ≠ n → finish_request (startTimes n) id = startTimes n) ∧
    (∀ j, 1 ≤ j → j < n → finish_request (startTimes n) (genOf j) = startTimes n) ∧
    (∀ j, j < n - 1 → (startTimes n).aborted.count j = 1) ∧
    (∀ j, n - 1 ≤ j → (startTimes n).aborted.count j = 0) := by
  have hM : n % U64_MOD = n := Nat.mod_eq_of_lt (show n < U64_MOD from hn)
  have h0 : ¬ (n = 0) := by omega
  have hocc : (startTimes n).occupant = some (n - 1, n) := by
    rw [startTimes_closed]
    simp only [h0, if_false, hM]
  have hgen : genOf n = n := by rw [genOf_eq n h1, hM]
  refine ⟨hocc, ?_, ?_, ?_, ?_, ?_⟩
  · rw [hgen, finish_request_current _ _ _ hocc]
  · intro id hid
    exact finish_request_stale _ _ _ _ hocc (Ne.symm hid)
  · intro j hj1 hj2
    have hjM : genOf j = j := by
      rw [genOf_eq j hj1]
      exact Nat.mod_eq_of_lt (show j < U64_MOD from lt_trans hj2 hn)
    rw [hjM]
    exact finish_request_stale _ _ _ _ hocc (by omega)
  · intro j hj
    rw [startTimes_closed]
    show (List.range (n - 1)).count j = 1
    rw [count_range]
    simp [hj]
  · intro j hj
    rw [startTimes_closed]
    show (List.range (n - 1)).count j = 0
    rw [count_range]
    simp [Nat.not_lt.mpr hj]

/-- Witness for C1 after three start calls. -/
theorem C1_single_flight_registry_witness :
    (1 ≤ 3 ∧ 3 < 2 ^ 64) ∧ (startTimes 3).occupant = some (2, 3) ∧
    finish_request (startTimes 3) (genOf 2) = startTimes 3 ∧
    (startTimes 3).aborted.count 0 = 1 :=
  ⟨⟨by norm_num, by norm_num⟩,
   (C1_single_flight_registry 3 (by norm_num) (by norm_num)).1,
   (C1_single_flight_registry 3 (by norm_num) (by norm_num)).2.2.2.1 2 (by norm_num) (by norm_num),
   (C1_single_flight_registry 3 (by norm_num) (by norm_num)).2.2.2.2.1 0 (by norm_num)⟩

/-- C7 counterexample: the exposed `cancel_quick_answer` command answers
`Ok(())` whether or not a request was in flight, so its caller is not told
whether anything was actually cancelled; only the registry-internal
`cancel_request` returns that information. -/
theorem C7_cancel_command_returns_unit :
    (cancel_quick_answer_command
        { counter := 5, occupant := some (0, 3), started := 1, aborted := [] }).1 =
      (cancel_quick_answer_command
        { counter := 5, occupant := none, started := 1, aborted := [] }).1 ∧
    (cancel_request { counter := 5, occupant := some (0, 3), started := 1, aborted := [] }).1 = some 3 ∧
    (cancel_request { counter := 5, occupant := none, started := 1, aborted := [] }).1 = none :=
  ⟨rfl, rfl, rfl⟩

/-- C7 (amended): the registry-internal cancel operation takes no argument
beyond the slot and returns the cancelled generation, or `none` — leaving the
state unchanged — when no request is in flight; the exposed command invokes
it but always reports plain unit success to its caller. -/
theorem C7_cancel_semantics (s : RegState) :
    (s.occupant = none → cancel_request s = (none, s)) ∧
    (∀ o i, s.occupant = some (o, i) →
      (cancel_request s).1 = some i ∧ (cancel_request s).2.occupant = none) ∧
    (cancel_quick_answer_command s).1 = Except.ok () := by
  refine ⟨?_, ?_, rfl⟩
  · intro h
    unfold cancel_request
    rw [h]
  · intro o i h
    unfold cancel_request
    rw [h]
    exact ⟨rfl, rfl⟩

/-- Witness for C7 on concrete occupied and empty registry states. -/
theorem C7_cancel_semantics_witness :
    ({ counter := 1, occupant := some (0, 1), started := 1, aborted := [] } : RegState).occupant
        = some (0, 1) ∧
    (cancel_request { counter := 1, occupant := some (0, 1), started := 1, aborted := [] }).1
        = some 1 ∧
    (cancel_request { counter := 1, occupant := none, started := 0, aborted := [] })
        = (none, { counter := 1, occupant := none, started := 0, aborted := [] }) :=
  ⟨rfl, ((C7_cancel_semantics _).2.1 0 1 rfl).1, (C7_cancel_semantics _).1 rfl⟩

/-! ## Stream decoder lemmas -/

theorem splitFirstLine_cons_newline (r : List Nat) :
    splitFirstLine (10 :: r) = some ([10], r) := by
  simp [splitFirstLine]

theorem splitFirstLine_cons (x : Nat) (r : List Nat) (hx : x ≠ 10) :
    splitFirstLine (x :: r) =
      match splitFirstLine r with
      | none => none
      | some p => some (x :: p.1, p.2) := by
  simp only [splitFirstLine, hx, if_false]
  cases splitFirstLine r with
  | none => rfl
  | some p => cases p; rfl

theorem splitFirstLine_length : ∀ (l line rest : List Nat),
    splitFirstLine l = some (line, rest) → rest.length < l.length := by
  intro l
  induction l with
  | nil => intro line rest h; simp [splitFirstLine] at h
  | cons b r ih =>
    intro line rest h
    by_cases hb : b = 10
    · subst hb
      rw [splitFirstLine_cons_newline] at h
      injection h with h
      injection h with h1 h2
      subst h2
      simp
    · rw [splitFirstLine_cons b r hb] at h
      cases hr : splitFirstLine r with
      | none => rw [hr] at h; simp at h
      | some p =>
        rw [hr] at h
        injection h with h
        injection h with h1 h2
        subst h2
        have hlt := ih p.1 p.2 hr
        simp only [List.length_cons]
        omega

theorem splitFirstLine_append_some : ∀ (a : List Nat) {line rest : List Nat} (b : List Nat),
    splitFirstLine a = some (line, rest) →
    splitFirstLine (a ++ b) = some (line, rest ++ b) := by
  intro a
  induction a with
  | nil => intro line rest b h; simp [splitFirstLine] at h
  | cons x xs ih =>
    intro line rest b h
    by_cases hx : x = 10
    · subst hx
      rw [splitFirstLine_cons_newline] at h
      injection h with h
      injection h with h1 h2
      subst h1
      subst h2
      rw [List.cons_append, splitFirstLine_cons_newline]
    · rw [splitFirstLine_cons x xs hx] at h
      cases hr : splitFirstLine xs with
      | none => rw [hr] at h; simp at h
      | some p =>
        rw [hr] at h
        injection h with h
        injection h with h1 h2
        subst h1
        subst h2
        rw [List.cons_append, splitFirstLine_cons x (xs ++ b) hx, ih b hr]

theorem drainLoopF_succ_none (parse : List Nat → Option ChatResponse) (f : Nat)
    {buffer : List Nat} (h : splitFirstLine buffer = none) :
    drainLoopF parse (f + 1) buffer = ([], buffer, false) := by
  simp [drainLoopF, h]

theorem drainLoopF_succ_some (parse : List Nat → Option ChatResponse) (f : Nat)
    {buffer line rest : List Nat} (h : splitFirstLine buffer = some (line, rest)) :
    drainLoopF parse (f + 1) buffer =
      (if (processLine parse line).2 then ((processLine parse line).1, rest, true)
       else ((processLine parse line).1 ++ (drainLoopF parse f rest).1,
             (drainLoopF parse f rest).2.1, (drainLoopF parse f rest).2.2)) := by
  simp only [drainLoopF, h]

theorem drainLoopF_congr (parse : List Nat → Option ChatResponse) :
    ∀ (fuel fuel' : Nat) (buffer : List Nat), buffer.length ≤ fuel → buffer.length ≤ fuel' →
      drainLoopF parse fuel buffer = drainLoopF parse fuel' buffer := by
  intro fuel
  induction fuel with
  | zero =>
    intro fuel' buffer h h'
    have hb : buffer = [] := List.length_eq_zero.mp (Nat.le_zero.mp h)
    subst hb
    cases fuel' with
    | zero => rfl
    | succ f' =>
      rw [drainLoopF_succ_none parse f' (show splitFirstLine [] = none from rfl)]
      rfl
  | succ f ih =>
    intro fuel' buffer h h'
    cases fuel' with
    | zero =>
      have hb : buffer = [] := List.length_eq_zero.mp (Nat.le_zero.mp h')
      subst hb
      rw [drainLoopF_succ_none parse f (show splitFirstLine [] = none from rfl)]
      rfl
    | succ f' =>
      cases hs : splitFirstLine buffer with
      | none => rw [drainLoopF_succ_none parse f hs, drainLoopF_succ_none parse f' hs]
      | some p =>
        obtain ⟨line, rest⟩ := p
        have hlen : rest.length < buffer.length := splitFirstLine_length buffer line rest hs
        rw [drainLoopF_succ_some parse f hs, drainLoopF_succ_some parse f' hs,
          ih f' rest (by omega) (by omega)]

theorem drainLoop_of_none (parse : List Nat → Option ChatResponse) {a : List Nat}
    (h : splitFirstLine a = none) : drainLoop parse a = ([], a, false) := by
  cases a with
  | nil => rfl
  | cons x xs =>
    show drainLoopF parse (xs.length + 1) (x :: xs) = _
    rw [drainLoopF_succ_none parse xs.length h]

theorem drainLoop_of_some (parse : List Nat → Option ChatResponse) {a line rest : List Nat}
    (h : splitFirstLine a = some (line, rest)) :
    drainLoop parse a =
      (if (processLine parse line).2 then ((processLine parse line).1, rest, true)
       else ((processLine parse line).1 ++ (drainLoop parse rest).1,
             (drainLoop parse rest).2.1, (drainLoop parse rest).2.2)) := by
  have hlen : rest.length < a.length := splitFirstLine_length a line rest h
  cases a with
  | nil => simp [splitFirstLine] at h
  | cons x xs =>
    show drainLoopF parse (xs.length + 1) (x :: xs) = _
    rw [drainLoopF_succ_some parse xs.length h,
      drainLoopF_congr parse xs.length rest.length rest
        (by simp only [List.length_cons] at hlen; omega) (le_refl _)]
    rfl

theorem drainLoopF_append (parse : List Nat → Option ChatResponse) :
    ∀ (fuel : Nat) (a b : List Nat), a.length + b.length ≤ fuel →
      drainLoopF parse fuel (a ++ b) =
        (if (drainLoop parse a).2.2 then
          ((drainLoop parse a).1, (drainLoop parse a).2.1 ++ b, true)
         else
          ((drainLoop parse a).1 ++ (drainLoop parse ((drainLoop parse a).2.1 ++ b)).1,
           (drainLoop parse ((drainLoop parse a).2.1 ++ b)).2.1,
           (drainLoop parse ((drainLoop parse a).2.1 ++ b)).2.2)) := by
  intro fuel
  induction fuel with
  | zero =>
    intro a b h
    have ha : a = [] := List.length_eq_zero.mp (by omega)
    have hb : b = [] := List.length_eq_zero.mp (by omega)
    subst ha
    subst hb
    simp [drainLoop, drainLoopF]
  | succ f ih =>
    intro a b h
    cases hs : splitFirstLine a with
    | none =>
      rw [drainLoop_of_none parse hs]
      have hfuel : (a ++ b).length ≤ f + 1 := by
        simp only [List.length_append]
        omega
      rw [drainLoopF_congr parse (f + 1) (a ++ b).length (a ++ b) hfuel (le_refl _)]
      rfl
    | some p =>
      obtain ⟨line, rest⟩ := p
      have hlen : rest.length < a.length := splitFirstLine_length a line rest hs
      rw [drainLoop_of_some parse hs]
      have hsb : splitFirstLine (a ++ b) = some (line, rest ++ b) :=
        splitFirstLine_append_some a b hs
      rw [drainLoopF_succ_some parse f hsb]
      by_cases hstop : (processLine parse line).2 = true
      · simp only [hstop, if_true]
      · have hstop' : (processLine parse line).2 = false := by
          cases hb : (processLine parse line).2
          · rfl
          · exact absurd hb hstop
        simp only [hstop', Bool.false_eq_true, if_false]
        rw [ih rest b (by omega)]
        by_cases h2 : (drainLoop parse rest).2.2 = true
        · simp only [h2, if_true]
        · have h2' : (drainLoop parse rest).2.2 = false := by
            cases hb : (drainLoop parse rest).2.2
            · rfl
            · exact absurd hb h2
          simp only [h2', Bool.false_eq_true, if_false, List.append_assoc]

theorem drainLoop_append (parse : List Nat → Option ChatResponse) (a b : List Nat) :
    drainLoop parse (a ++ b) =
      (if (drainLoop parse a).2.2 then
        ((drainLoop parse a).1, (drainLoop parse a).2.1 ++ b, true)
       else
        ((drainLoop parse a).1 ++ (drainLoop parse ((drainLoop parse a).2.1 ++ b)).1,
         (drainLoop parse ((drainLoop parse a).2.1 ++ b)).2.1,
         (drainLoop parse ((drainLoop parse a).2.1 ++ b)).2.2)) := by
  exact drainLoopF_append parse (a ++ b).length a b (by simp [List.length_append])

theorem drainLoop_rest_none (parse : List Nat → Option ChatResponse) :
    ∀ (n : Nat) (a : List Nat), a.length ≤ n → (drainLoop parse a).2.2 = false →
      splitFirstLine (drainLoop parse a).2.1 = none := by
  intro n
  induction n with
  | zero =>
    intro a ha _
    have hb : a = [] := List.length_eq_zero.mp (Nat.le_zero.mp ha)
    subst hb
    rfl
  | succ f ih =>
    intro a ha hfalse
    cases hs : splitFirstLine a with
    | none =>
      rw [drainLoop_of_none parse hs]
      exact hs
    | some p =>
      obtain ⟨line, rest⟩ := p
      have hlen : rest.length < a.length := splitFirstLine_length a line rest hs
      rw [drainLoop_of_some parse hs] at hfalse ⊢
      by_cases hstop : (processLine parse line).2 = true
      · rw [if_pos hstop] at hfalse
        simp at hfalse
      · have hstop' : (processLine parse line).2 = false := by
          cases hb : (processLine parse line).2
          · rfl
          · exact absurd hb hstop
        rw [hstop'] at hfalse ⊢
        simp only [Bool.false_eq_true, if_false] at hfalse ⊢
        exact ih rest (by omega) hfalse

theorem runChunks_stopped (parse : List Nat → Option ChatResponse) :
    ∀ (cs : List (List Nat)) (buf : List Nat),
      runChunks parse { buffer := buf, stopped := true } cs
        = ({ buffer := buf, stopped := true }, []) := by
  intro cs
  induction cs with
  | nil => intro buf; rfl
  | cons c cs ih =>
    intro buf
    simp only [runChunks, processChunk]
    simp [ih buf]

theorem runChunks_cons_run (parse : List Nat → Option ChatResponse) (buf : List Nat)
    (c : List Nat) (cs : List (List Nat)) :
    runChunks parse { buffer := buf, stopped := false } (c :: cs) =
      (let out := drainLoop parse (buf ++ c)
       let rest := runChunks parse { buffer := out.2.1, stopped := out.2.2 } cs
       (rest.1, out.1 ++ rest.2)) := by
  simp only [runChunks, processChunk]
  rw [if_neg (by simp)]

theorem runChunks_flatten (parse : List Nat → Option ChatResponse) :
    ∀ (cs : List (List Nat)) (buf : List Nat), splitFirstLine buf = none →
      (runChunks parse { buffer := buf, stopped := false } cs).2
          = (drainLoop parse (buf ++ cs.flatten)).1 ∧
      (runChunks parse { buffer := buf, stopped := false } cs).1.stopped
          = (drainLoop parse (buf ++ cs.flatten)).2.2 := by
  intro cs
  induction cs with
  | nil =>
    intro buf hb
    rw [show (([] : List (List Nat)).flatten) = ([] : List Nat) from rfl, List.append_nil,
      drainLoop_of_none parse hb]
    exact ⟨rfl, rfl⟩
  | cons c cs ih =>
    intro buf hb
    rw [runChunks_cons_run parse buf c cs]
    have hflat : buf ++ (c :: cs).flatten = (buf ++ c) ++ cs.flatten := by
      rw [List.flatten_cons, List.append_assoc]
    rw [hflat, drainLoop_append parse (buf ++ c) cs.flatten]
    cases hO : (drainLoop parse (buf ++ c)).2.2 with
    | true =>
      simp only [hO, if_true]
      rw [runChunks_stopped parse cs]
      exact ⟨by simp, rfl⟩
    | false =>
      simp only [hO, Bool.false_eq_true, if_false]
      have hnone : splitFirstLine (drainLoop parse (buf ++ c)).2.1 = none :=
        drainLoop_rest_none parse (buf ++ c).length (buf ++ c) (le_refl _) hO
      obtain ⟨ih1, ih2⟩ := ih (drainLoop parse (buf ++ c)).2.1 hnone
      exact ⟨by simp only [ih1], by simp only [ih2]⟩

theorem processLine_done (parse : List Nat → Option ChatResponse) (l : List Nat) :
    ((processLine parse l).2 = true →
      ∃ E, (processLine parse l).1 = E ++ [Event.done] ∧ Event.done ∉ E) ∧
    ((processLine parse l).2 = false → Event.done ∉ (processLine parse l).1) := by
  unfold processLine
  by_cases hlen : l.length ≤ 1
  · simp [hlen]
  · simp only [hlen, if_false]
    cases hp : parse l with
    | none => simp
    | some r =>
      obtain ⟨msg, d⟩ := r
      cases msg with
      | none =>
        cases d with
        | false => simp
        | true => exact ⟨fun _ => ⟨[], by simp, by simp⟩, fun h => by simp at h⟩
      | some m =>
        by_cases hc : m.content = ""
        · cases d with
          | false => simp [hc]
          | true => exact ⟨fun _ => ⟨[], by simp [hc], by simp⟩, fun h => by simp at h⟩
        · cases d with
          | false => simp [hc]
          | true =>
            exact ⟨fun _ => ⟨[Event.token m.content], by simp [hc], by simp⟩,
              fun h => by simp at h⟩

theorem drainLoopF_done (parse : List Nat → Option ChatResponse) :
    ∀ (fuel : Nat) (a : List Nat),
      ((drainLoopF parse fuel a).2.2 = true →
        ∃ E, (drainLoopF parse fuel a).1 = E ++ [Event.done] ∧ Event.done ∉ E) ∧
      ((drainLoopF parse fuel a).2.2 = false →
        Event.done ∉ (drainLoopF parse fuel a).1) := by
  intro fuel
  induction fuel with
  | zero => intro a; simp [drainLoopF]
  | succ f ih =>
    intro a
    cases hs : splitFirstLine a with
    | none =>
      rw [drainLoopF_succ_none parse f hs]
      simp
    | some p =>
      obtain ⟨line, rest⟩ := p
      rw [drainLoopF_succ_some parse f hs]
      cases hstop : (processLine parse line).2 with
      | true =>
        simp only [hstop, if_true]
        exact ⟨fun _ => (processLine_done parse line).1 hstop, by simp⟩
      | false =>
        simp only [hstop, Bool.false_eq_true, if_false]
        have hnd := (processLine_done parse line).2 hstop
        constructor
        · intro htrue
          obtain ⟨E, hE, hnE⟩ := (ih rest).1 htrue
          refine ⟨(processLine parse line).1 ++ E, ?_, ?_⟩
          · rw [hE, List.append_assoc]
          · simp only [List.mem_append]
            rintro (hmem | hmem)
            · exact hnd hmem
            · exact hnE hmem
        · intro hfalse
          have h2 := (ih rest).2 hfalse
          simp only [List.mem_append]
          rintro (hmem | hmem)
          · exact hnd hmem
          · exact h2 hmem

theorem drainLoop_done (parse : List Nat → Option ChatResponse) (a : List Nat) :
    ((drainLoop parse a).2.2 = true →
      ∃ E, (drainLoop parse a).1 = E ++ [Event.done] ∧ Event.done ∉ E) ∧
    ((drainLoop parse a).2.2 = false → Event.done ∉ (drainLoop parse a).1) :=
  drainLoopF_done parse a.length a

/-- C2: for every byte stream and every two ways of splitting it into chunks
(including splits in the middle of a line), the stream decoder emits the same
event sequence: the decoded events depend only on the concatenated bytes. -/
theorem C2_chunk_boundary_invariance (parse : List Nat → Option ChatResponse) (cs1 cs2 : List (List Nat))
    (h : cs1.flatten = cs2.flatten) :
    chat_stream_events parse cs1 = chat_stream_events parse cs2 := by
  simp only [chat_stream_events]
  obtain ⟨e1, s1⟩ := runChunks_flatten parse cs1 [] rfl
  obtain ⟨e2, s2⟩ := runChunks_flatten parse cs2 [] rfl
  simp only [List.nil_append] at e1 s1 e2 s2
  rw [e1, s1, e2, s2, h]

/-- Witness for C2 on a two-chunk split of the bytes `"12\n"`. -/
theorem C2_chunk_boundary_invariance_witness :
    ([[49], [50, 10]] : List (List Nat)).flatten = ([[49, 50, 10]] : List (List Nat)).flatten ∧
    chat_stream_events (fun _ => none) [[49], [50, 10]]
      = chat_stream_events (fun _ => none) [[49, 50, 10]] :=
  ⟨rfl, C2_chunk_boundary_invariance (fun _ => none) [[49], [50, 10]] [[49, 50, 10]] rfl⟩

/-- C6: for every input byte stream the decoder emits exactly one terminal
done event — the event sequence ends in `Event.done` and contains no earlier
done event — and once a done line stopped the stream no further chunk is
read. The final done is appended by the decoder itself when the underlying
stream ends without a done line. -/
theorem C6_exactly_one_done_event (parse : List Nat → Option ChatResponse) (cs : List (List Nat)) :
    (∃ E, chat_stream_events parse cs = E ++ [Event.done] ∧ Event.done ∉ E) ∧
    (∀ (buf : List Nat) (cs2 : List (List Nat)),
      runChunks parse { buffer := buf, stopped := true } cs2
        = ({ buffer := buf, stopped := true }, [])) := by
  constructor
  · simp only [chat_stream_events]
    obtain ⟨e1, s1⟩ := runChunks_flatten parse cs [] rfl
    simp only [List.nil_append] at e1 s1
    rw [e1, s1]
    cases hstop : (drainLoop parse cs.flatten).2.2 with
    | true =>
      rw [if_pos rfl]
      exact (drainLoop_done parse cs.flatten).1 hstop
    | false =>
      rw [if_neg (by simp)]
      exact ⟨(drainLoop parse cs.flatten).1, rfl, (drainLoop_done parse cs.flatten).2 hstop⟩
  · intro buf cs2
    exact runChunks_stopped parse cs2 buf

/-- Witness for C6: a stream with no done line still ends in one done
event, and a stopped decoder consumes nothing. -/
theorem C6_exactly_one_done_event_witness :
    chat_stream_events (fun _ => none) [[97, 10]] = [] ++ [Event.done] ∧
    runChunks (fun _ => none) { buffer := [], stopped := true } [[97]]
      = ({ buffer := [], stopped := true }, []) :=
  ⟨by rfl, (C6_exactly_one_done_event (fun _ => none) [[97, 10]]).2 [] [[97]]⟩

/-- C8: a blank line (length at most 1) or a line the parser rejects is
skipped without emitting any event and without stopping, and the remainder of
the stream decodes exactly as if the offending line were absent. -/
theorem C8_malformed_lines_skipped (parse : List Nat → Option ChatResponse) (bad b : List Nat)
    (h1 : splitFirstLine bad = some (bad, []))
    (h2 : bad.length ≤ 1 ∨ parse bad = none) :
    processLine parse bad = ([], false) ∧
    drainLoop parse (bad ++ b) = drainLoop parse b := by
  have hpl : processLine parse bad = ([], false) := by
    unfold processLine
    rcases h2 with h | h
    · simp [h]
    · by_cases hlen : bad.length ≤ 1
      · simp [hlen]
      · simp [hlen, h]
  refine ⟨hpl, ?_⟩
  have hsb : splitFirstLine (bad ++ b) = some (bad, [] ++ b) :=
    splitFirstLine_append_some bad b h1
  rw [List.nil_append] at hsb
  rw [drainLoop_of_some parse hsb, hpl]
  simp

/-- Witness for C8: an unparseable line followed by another line. -/
theorem C8_malformed_lines_skipped_witness :
    splitFirstLine [123, 10] = some ([123, 10], []) ∧
    (fun (_ : List Nat) => (none : Option ChatResponse)) [123, 10] = none ∧
    processLine (fun _ => none) [123, 10] = ([], false) ∧
    drainLoop (fun _ => none) ([123, 10] ++ [100, 10]) = drainLoop (fun _ => none) [100, 10] :=
  ⟨rfl, rfl, (C8_malformed_lines_skipped (fun _ => none) [123, 10] [100, 10] rfl (Or.inr rfl)).1,
    (C8_malformed_lines_skipped (fun _ => none) [123, 10] [100, 10] rfl (Or.inr rfl)).2⟩

/-! ## Orchestrator lemmas -/

theorem quick_answer_tool_branch (env : QAEnv) (text : String) (think : Bool)
    (role content : String) (tcs : List ToolCall) (d : Bool)
    (htext : ¬ strTrim text = "")
    (hne : tcs ≠ [])
    (hfirst : env.firstCall [Msg.system QUICK_ANSWER_SYSTEM_PROMPT,
        Msg.user (text ++ thinkSuffix think)]
      = Except.ok ⟨some ⟨role, content, some tcs⟩, d⟩) :
    quick_answer text think env = secondRound env
      ([Msg.system QUICK_ANSWER_SYSTEM_PROMPT, Msg.user (text ++ thinkSuffix think)]
        ++ [Msg.assistant content (some tcs)]
        ++ (processToolCalls env.webSearch tcs).map (fun p => Msg.tool p.1 p.2)) := by
  cases tcs with
  | nil => exact absurd rfl hne
  | cons t ts =>
    unfold quick_answer
    rw [if_neg htext]
    simp only [hfirst]
    rfl

theorem processToolCalls_single_ok (ws : String → Except String String) (tc : ToolCall)
    (r : String) (hname : tc.function.name = "web_search") (hq : queryOf tc ≠ "")
    (hws : ws (queryOf tc) = Except.ok r) :
    processToolCalls ws [tc] = [("web_search", r)] := by
  unfold processToolCalls
  simp [toolStep, hname, hq, hws]

theorem processToolCalls_single_err (ws : String → Except String String) (tc : ToolCall)
    (e : String) (hname : tc.function.name = "web_search") (hq : queryOf tc ≠ "")
    (hws : ws (queryOf tc) = Except.error e) :
    processToolCalls ws [tc] = [("web_search", "Search failed: " ++ e)] := by
  unfold processToolCalls
  simp [toolStep, hname, hq, hws]

/-- C3: when the first completion call returns an assistant message with one
executed `web_search` tool call (scenario B), the conversation sent to the
second call is exactly system, user, assistant echoing the content and
tool-call list, then the one tool message, in that order; the final result is
the second call's assistant text. -/
theorem C3_scenario_b_four_message_conversation (env : QAEnv) (text : String) (think : Bool) (content q r : String)
    (tc : ToolCall) (m2 : ChatMessage) (d1 d2 : Bool)
    (htext : ¬ strTrim text = "")
    (hname : tc.function.name = "web_search")
    (hq : queryOf tc = q) (hq2 : q ≠ "")
    (hfirst : env.firstCall [Msg.system QUICK_ANSWER_SYSTEM_PROMPT,
        Msg.user (text ++ thinkSuffix think)]
      = Except.ok ⟨some ⟨"assistant", content, some [tc]⟩, d1⟩)
    (hws : env.webSearch q = Except.ok r)
    (hsecond : env.secondCall [Msg.system QUICK_ANSWER_SYSTEM_PROMPT,
        Msg.user (text ++ thinkSuffix think), Msg.assistant content (some [tc]),
        Msg.tool "web_search" r]
      = Except.ok ⟨some m2, d2⟩) :
    quick_answer text think env = secondRound env
      [Msg.system QUICK_ANSWER_SYSTEM_PROMPT, Msg.user (text ++ thinkSuffix think),
       Msg.assistant content (some [tc]), Msg.tool "web_search" r] ∧
    quick_answer text think env = Except.ok m2.content := by
  subst hq
  have h1 := quick_answer_tool_branch env text think "assistant" content [tc] d1 htext
    (by simp) hfirst
  rw [processToolCalls_single_ok env.webSearch tc r hname hq2 hws] at h1
  simp only [List.map_cons, List.map_nil, List.cons_append, List.nil_append] at h1
  refine ⟨h1, ?_⟩
  rw [h1]
  unfold secondRound
  rw [hsecond]
  rfl

/-- C5: a blank (after trimming) search API URL or key makes the tool
invocation fail with a "… not configured in Options" message, but the failure
never aborts the orchestration: it is captured as the tool's result text
prefixed with "Search failed: ", the tool message is still appended, and the
second completion call proceeds with its response becoming the final
result. -/
theorem C5_tool_failure_does_not_abort (net : String → Except String String) (url key text content q : String)
    (think d1 : Bool) (tc : ToolCall)
    (first second : List Msg → Except String ChatResponse)
    (htext : ¬ strTrim text = "")
    (hname : tc.function.name = "web_search")
    (hq : queryOf tc = q) (hq2 : q ≠ "")
    (hcfg : strTrim url = "" ∨ strTrim key = "")
    (hfirst : first [Msg.system QUICK_ANSWER_SYSTEM_PROMPT,
        Msg.user (text ++ thinkSuffix think)]
      = Except.ok ⟨some ⟨"assistant", content, some [tc]⟩, d1⟩) :
    ∃ e, execute_web_search net q url key = Except.error e ∧
      (∃ p, e = p ++ "not configured in Options") ∧
      quick_answer text think
          ⟨first, second, fun s => execute_web_search net s url key⟩
        = secondRound ⟨first, second, fun s => execute_web_search net s url key⟩
            [Msg.system QUICK_ANSWER_SYSTEM_PROMPT, Msg.user (text ++ thinkSuffix think),
             Msg.assistant content (some [tc]),
             Msg.tool "web_search" ("Search failed: " ++ e)] := by
  subst hq
  have hmain : ∀ e, execute_web_search net (queryOf tc) url key = Except.error e →
      quick_answer text think ⟨first, second, fun s => execute_web_search net s url key⟩
        = secondRound ⟨first, second, fun s => execute_web_search net s url key⟩
            [Msg.system QUICK_ANSWER_SYSTEM_PROMPT, Msg.user (text ++ thinkSuffix think),
             Msg.assistant content (some [tc]),
             Msg.tool "web_search" ("Search failed: " ++ e)] := by
    intro e he
    have h1 := quick_answer_tool_branch
      ⟨first, second, fun s => execute_web_search net s url key⟩ text think
      "assistant" content [tc] d1 htext (by simp) hfirst
    rw [processToolCalls_single_err _ tc e hname hq2 he] at h1
    simp only [List.map_cons, List.map_nil, List.cons_append, List.nil_append] at h1
    exact h1
  by_cases hu : strTrim url = ""
  · refine ⟨"Search API URL not configured in Options", ?_, ⟨"Search API URL ", rfl⟩, ?_⟩
    · unfold execute_web_search
      rw [if_pos hu]
    · exact hmain _ (by unfold execute_web_search; rw [if_pos hu])
  · have hk : strTrim key = "" := hcfg.resolve_left hu
    refine ⟨"Search API key not configured in Options", ?_, ⟨"Search API key ", rfl⟩, ?_⟩
    · unfold execute_web_search
      rw [if_neg hu, if_pos hk]
    · exact hmain _ (by unfold execute_web_search; rw [if_neg hu, if_pos hk])

/-- C10: a `web_search` tool call whose `query` argument is missing, not a
string, or empty is skipped entirely — the executor is not consulted and no
tool message is produced for it — while the second completion call still
proceeds when another well-formed tool call is present. -/
theorem C10_invalid_query_tool_call_skipped (tc : ToolCall)
    (hname : tc.function.name = "web_search")
    (hq : tc.function.arguments.get "query" = none ∨
      (∃ v, tc.function.arguments.get "query" = some v ∧ v.as_str = none) ∨
      (tc.function.arguments.get "query").bind JVal.as_str = some "") :
    (∀ (ws : String → Except String String) (acc : List (String × String)),
      toolStep ws acc tc = acc) ∧
    (∀ (ws : String → Except String String) (tcs1 tcs2 : List ToolCall),
      processToolCalls ws (tcs1 ++ tc :: tcs2) = processToolCalls ws (tcs1 ++ tcs2)) ∧
    (∀ (env : QAEnv) (text content q2 r : String) (think d1 : Bool) (tc2 : ToolCall),
      ¬ strTrim text = "" → tc2.function.name = "web_search" → queryOf tc2 = q2 → q2 ≠ "" →
      env.webSearch q2 = Except.ok r →
      env.firstCall [Msg.system QUICK_ANSWER_SYSTEM_PROMPT,
          Msg.user (text ++ thinkSuffix think)]
        = Except.ok ⟨some ⟨"assistant", content, some [tc, tc2]⟩, d1⟩ →
      quick_answer text think env = secondRound env
        [Msg.system QUICK_ANSWER_SYSTEM_PROMPT, Msg.user (text ++ thinkSuffix think),
         Msg.assistant content (some [tc, tc2]), Msg.tool "web_search" r]) := by
  have hq0 : queryOf tc = "" := by
    unfold queryOf
    rcases hq with h | ⟨v, hv, hvs⟩ | h
    · rw [h]
      rfl
    · rw [hv]
      simp [hvs]
    · rw [h]
      rfl
  have hskip : ∀ (ws : String → Except String String) (acc : List (String × String)),
      toolStep ws acc tc = acc := by
    intro ws acc
    unfold toolStep
    rw [hname, if_pos rfl, if_pos hq0]
  refine ⟨hskip, ?_, ?_⟩
  · intro ws tcs1 tcs2
    unfold processToolCalls
    rw [List.foldl_append, List.foldl_append, List.foldl_cons, hskip]
  · intro env text content q2 r think d1 tc2 htext hname2 hq2 hq2ne hws hfirst
    subst hq2
    have h1 := quick_answer_tool_branch env text think "assistant" content [tc, tc2] d1 htext
      (by simp) hfirst
    have hpt : processToolCalls env.webSearch [tc, tc2] = [("web_search", r)] := by
      unfold processToolCalls
      rw [List.foldl_cons, hskip]
      simp [toolStep, hname2, hq2ne, hws]
    rw [hpt] at h1
    simp only [List.map_cons, List.map_nil, List.cons_append, List.nil_append] at h1
    exact h1

/-- Witness for C3 on the spec's scenario B fixtures. -/
theorem C3_scenario_b_four_message_conversation_witness :
    quick_answer "capital of France" false scenarioBEnv
      = Except.ok "The capital of France is Paris." :=
  (C3_scenario_b_four_message_conversation scenarioBEnv "capital of France" false "" "capital of France" "Paris."
    (wsToolCall "capital of France")
    ⟨"assistant", "The capital of France is Paris.", none⟩ true true
    (by decide) rfl rfl (by decide) rfl rfl rfl).2

/-- Witness for C5 on the spec's scenario C fixtures (blank API URL). -/
theorem C5_tool_failure_does_not_abort_witness :
    ∃ e, execute_web_search (fun _ => Except.ok "raw") "capital of France" "" "key"
        = Except.error e ∧
      (∃ p, e = p ++ "not configured in Options") ∧
      quick_answer "capital of France" false scenarioCEnv
        = secondRound scenarioCEnv
            [Msg.system QUICK_ANSWER_SYSTEM_PROMPT,
             Msg.user ("capital of France" ++ thinkSuffix false),
             Msg.assistant "" (some [wsToolCall "capital of France"]),
             Msg.tool "web_search" ("Search failed: " ++ e)] :=
  C5_tool_failure_does_not_abort (fun _ => Except.ok "raw") "" "key" "capital of France" "" "capital of France"
    false true (wsToolCall "capital of France")
    scenarioCEnv.firstCall scenarioCEnv.secondCall
    (by decide) rfl rfl (by decide) (Or.inl rfl) rfl

/-- Witness for C10 with a tool call whose arguments lack `query`. -/
theorem C10_invalid_query_tool_call_skipped_witness :
    toolStep (fun _ => Except.ok "Paris.") [] emptyQueryToolCall = [] ∧
    processToolCalls (fun _ => Except.ok "Paris.")
        ([] ++ emptyQueryToolCall :: [wsToolCall "q"])
      = processToolCalls (fun _ => Except.ok "Paris.") ([] ++ [wsToolCall "q"]) ∧
    quick_answer "capital of France" false scenarioSkipEnv
      = secondRound scenarioSkipEnv
          [Msg.system QUICK_ANSWER_SYSTEM_PROMPT,
           Msg.user ("capital of France" ++ thinkSuffix false),
           Msg.assistant "" (some [emptyQueryToolCall, wsToolCall "capital of France"]),
           Msg.tool "web_search" "Paris."] :=
  ⟨(C10_invalid_query_tool_call_skipped emptyQueryToolCall rfl (Or.inl rfl)).1 _ [],
   (C10_invalid_query_tool_call_skipped emptyQueryToolCall rfl (Or.inl rfl)).2.1 _ [] [wsToolCall "q"],
   (C10_invalid_query_tool_call_skipped emptyQueryToolCall rfl (Or.inl rfl)).2.2 scenarioSkipEnv "capital of France" ""
     "capital of France" "Paris." false true (wsToolCall "capital of France")
     (by decide) rfl rfl (by decide) rfl rfl⟩

/-! ## Translation theorems -/

/-- C4 (amended): with no target language (or target "en") the resolver
translates to English and fails with "Source is English" when the detected
source already is English; with a non-English target it translates to that
target and returns that result when the detected source is English, while a
non-English detected source makes it fall back to translating to English. -/
theorem C4_translation_direction (translator : String → String → Except String TranslationResult)
    (text tgt : String) (er sr : TranslationResult)
    (htext : ¬ strTrim text = "")
    (htgt1 : strTrim tgt ≠ "") (htgt2 : strTrim tgt ≠ "en")
    (hen : translator text "en" = Except.ok er)
    (hsr : translator text (strTrim tgt) = Except.ok sr) :
    (er.detected_language = "en" →
      translate_text translator text none = Except.error "Source is English" ∧
      translate_text translator text (some "en") = Except.error "Source is English") ∧
    (er.detected_language ≠ "en" →
      translate_text translator text none = Except.ok er) ∧
    (sr.detected_language = "en" →
      translate_text translator text (some tgt) = Except.ok sr) ∧
    (sr.detected_language ≠ "en" →
      translate_text translator text (some tgt) = Except.ok er) := by
  have hcond : ¬ (strTrim tgt = "" ∨ strTrim tgt = "en") := by
    rw [not_or]
    exact ⟨htgt1, htgt2⟩
  have hEn : ∀ (target : Option String), strTrim (target.getD "") = "" ∨
      strTrim (target.getD "") = "en" →
      translate_text translator text target =
        (match translator text "en" with
         | Except.error e => Except.error e
         | Except.ok english_result =>
             if english_result.detected_language = "en" then Except.error "Source is English"
             else Except.ok english_result) := by
    intro target htgt
    unfold translate_text
    rw [if_neg htext]
    show (if strTrim (target.getD "") = "" ∨ strTrim (target.getD "") = "en" then _ else _) = _
    rw [if_pos htgt]
  have hT : translate_text translator text (some tgt) =
      (match translator text (strTrim tgt) with
       | Except.error e => Except.error e
       | Except.ok second_language_result =>
           if second_language_result.detected_language = "en" then
             Except.ok second_language_result
           else
             match translator text "en" with
             | Except.error e => Except.error e
             | Except.ok english_result => Except.ok english_result) := by
    unfold translate_text
    rw [if_neg htext]
    show (if strTrim ((some tgt).getD "") = "" ∨ strTrim ((some tgt).getD "") = "en"
      then _ else _) = _
    simp only [Option.getD_some]
    rw [if_neg hcond]
  refine ⟨?_, ?_, ?_, ?_⟩
  · intro hdet
    constructor
    · rw [hEn none (Or.inl rfl)]
      simp only [hen]
      rw [if_pos hdet]
    · rw [hEn (some "en") (Or.inr rfl)]
      simp only [hen]
      rw [if_pos hdet]
  · intro hdet
    rw [hEn none (Or.inl rfl)]
    simp only [hen]
    rw [if_neg hdet]
  · intro hdet
    rw [hT]
    simp only [hsr]
    rw [if_pos hdet]
  · intro hdet
    rw [hT]
    simp only [hsr]
    rw [if_neg hdet]
    simp only [hen]

/-- C4 counterexample: with target "fr" and detected source "en" the code
returns the French translation rather than falling back to translating to
English as the claim states: the result differs from the English
translation the translator would have produced. -/
theorem C4_english_source_keeps_target_translation :
    translate_text (fun _ tgt => Except.ok ⟨"T-" ++ tgt, "en"⟩) "hola" (some "fr")
      = Except.ok ⟨"T-fr", "en"⟩ ∧
    (fun (_ tgt : String) =>
        (Except.ok (⟨"T-" ++ tgt, "en"⟩ : TranslationResult) : Except String TranslationResult))
        "hola" "en"
      = Except.ok ⟨"T-en", "en"⟩ ∧
    (Except.ok (⟨"T-fr", "en"⟩ : TranslationResult) : Except String TranslationResult)
      ≠ Except.ok ⟨"T-en", "en"⟩ := by
  refine ⟨rfl, rfl, fun h => ?_⟩
  have h2 := congrArg (fun x => match x with
    | Except.ok r => TranslationResult.text r
    | Except.error _ => "") h
  simp only at h2
  exact absurd h2 (by decide)

/-- Witness for C4 with a translator detecting a non-English source. -/
theorem C4_translation_direction_witness :
    translate_text (fun _ tgt => Except.ok ⟨"T-" ++ tgt, "ru"⟩) "hola" none
      = Except.ok ⟨"T-en", "ru"⟩ ∧
    translate_text (fun _ tgt => Except.ok ⟨"T-" ++ tgt, "ru"⟩) "hola" (some "fr")
      = Except.ok ⟨"T-en", "ru"⟩ :=
  ⟨(C4_translation_direction (fun _ tgt => Except.ok ⟨"T-" ++ tgt, "ru"⟩) "hola" "fr"
      ⟨"T-en", "ru"⟩ ⟨"T-fr", "ru"⟩ (by decide) (by decide) (by decide) rfl rfl).2.1
        (by decide),
   (C4_translation_direction (fun _ tgt => Except.ok ⟨"T-" ++ tgt, "ru"⟩) "hola" "fr"
      ⟨"T-en", "ru"⟩ ⟨"T-fr", "ru"⟩ (by decide) (by decide) (by decide) rfl rfl).2.2.2
        (by decide)⟩
